import Mathlib

set_option maxRecDepth 40000

/-!
Verification of `ethereumetl/service/token_transfer_extractor.py`.

The extractor decodes raw EVM event-log records into token-transfer records.
It recognises three event signatures (ERC20/721 `Transfer`, ERC1155
`TransferSingle`, ERC1155 `TransferBatch`) and routes each log to one of
three handlers that read a flat "tape" of 32-byte hex words obtained by
concatenating the log's topics with the words split from its data blob.

The embedding below mirrors the Python source closely.  Python exceptions
(an out-of-range list index raises `IndexError`) are modelled with the
`PyResult` type; `logger.warning` calls are modelled by accumulating the
formatted warning messages in a list.  The helpers `chunk_string`,
`hex_to_dec` and `to_normalized_address` come from `ethereumetl/utils.py`,
which is not part of the sources at hand; they are modelled from the spec
and marked as such in their doc comments.
-/

/-- Transfer(address,address,uint256) signature topic (ERC20/ERC721). -/
def TRANSFER_EVENT_TOPIC : String :=
  "0xddf252ad1be2c89b69c2b068fc378daa952ba7f163c4a11628f55a4df523b3ef"

/-- TransferSingle(address,address,address,uint256,uint256) signature topic (ERC1155). -/
def TRANSFER_ERC1155_EVENT_TOPIC : String :=
  "0xc3d58168c5ae7397731d063d5bbf3d657854427343f4c083240f7aacaa2d0f62"

/-- TransferBatch(address,address,address,uint256[],uint256[]) signature topic (ERC1155). -/
def TRANSFER_BATCH_ERC1155_EVENT_TOPIC : String :=
  "0x4a39dc06d4c0dbc64b70af90fd698a233a518aa5d07e595d983b8c0526c8f7fb"

/-- Input log record.  `topics` is `none` when the Python field is `None`;
`data` is the raw hex blob (Python `None` behaves exactly like `""` in
`split_to_words`, so a plain string suffices).  `transaction_hash`,
`log_index` and `block_number` are opaque pass-through identifiers. -/
structure EthReceiptLog where
  address : String
  topics : Option (List String)
  data : String
  transaction_hash : String
  log_index : Nat
  block_number : Nat
deriving Repr, DecidableEq

/-- Output transfer record (`EthTokenTransfer` in the Python domain model).
`from_address` / `to_address` are `Option` because `word_to_address`
propagates `None`; `token_id` is `none` for the ERC20/721 shape. -/
structure EthTokenTransfer where
  token_address : String
  from_address : Option String
  to_address : Option String
  value : Nat
  token_id : Option Nat
  transaction_hash : String
  log_index : Nat
  block_number : Nat
deriving Repr, DecidableEq

/-- Value of a single hex digit character (0 for a non-hex character; the
spec only constrains `hex_to_dec` on well-formed hex words). -/
def hexDigitVal (c : Char) : Nat :=
  if '0' ≤ c ∧ c ≤ '9' then c.toNat - '0'.toNat
  else if 'a' ≤ c ∧ c ≤ 'f' then c.toNat - 'a'.toNat + 10
  else if 'A' ≤ c ∧ c ≤ 'F' then c.toNat - 'A'.toNat + 10
  else 0

/-- Python `str.casefold` restricted to ASCII hex strings, where it
coincides with char-wise lowercasing. -/
def casefold (s : String) : String :=
  String.mk (s.data.map Char.toLower)

/-- Modelled from the spec: `hex_to_dec` from `ethereumetl/utils.py` is not
among the sources; the spec says it decodes a "0x"-prefixed hex word into
an arbitrary-precision unsigned integer. -/
def hex_to_dec (s : String) : Nat :=
  let digits := if s.data.take 2 = ['0', 'x'] then s.data.drop 2 else s.data
  digits.foldl (fun acc c => acc * 16 + hexDigitVal c) 0

/-- Modelled from the spec: `to_normalized_address` from
`ethereumetl/utils.py` is not among the sources; the spec says
normalization is lowercase hex with a canonical "0x" prefix, idempotent
over well-formed inputs. -/
def to_normalized_address (addr : String) : String :=
  let lower := casefold addr
  if lower.data.take 2 = ['0', 'x'] then lower else "0x" ++ lower

/-- Chunking on lists of characters, fuel-indexed so that the recursion is
structural (the fuel only needs to dominate the list length). -/
def chunkListFuel (width : Nat) : Nat → List Char → List (List Char)
  | 0, _ => []
  | fuel + 1, l =>
    if l = [] ∨ width = 0 then []
    else l.take width :: chunkListFuel width fuel (l.drop width)

/-- Chunking on lists of characters: consecutive groups of `width`
elements, last group possibly short. -/
def chunkList (l : List Char) (width : Nat) : List (List Char) :=
  chunkListFuel width l.length l

/-- Modelled from the spec: `chunk_string` from `ethereumetl/utils.py` is
not among the sources; the spec says it splits a string into fixed-width
substrings, the last chunk possibly short. -/
def chunk_string (s : String) (width : Nat) : List String :=
  (chunkList s.data width).map String.mk

/-- `split_to_words` from the source: when the data string is longer than 2
characters, drop its first two characters, chunk the rest into 64-character
words and re-prefix each with "0x"; otherwise (including Python `None` and
`"0x"`) return the empty list. -/
def split_to_words (data : String) : List String :=
  if 2 < data.length then
    (chunk_string (String.mk (data.data.drop 2)) 64).map (fun word => "0x" ++ word)
  else []

/-- `word_to_address` from the source: `None` propagates; a word of total
length at least 40 is cut down to its last 40 characters and normalized
with a fresh "0x" prefix; shorter words are normalized whole. -/
def word_to_address (param : Option String) : Option String :=
  match param with
  | none => none
  | some p =>
    if 40 ≤ p.length then
      some (to_normalized_address ("0x" ++ String.mk (p.data.drop (p.length - 40))))
    else
      some (to_normalized_address p)

/-- Result of running a Python method: either a normal return or an
uncaught exception (here only `IndexError` from an out-of-range tape
read in the batch handler). -/
inductive PyResult (α : Type) where
  | ok : α → PyResult α
  | exn : PyResult α
deriving Repr, DecidableEq

/-- A handler's normal return: the extracted transfers (`none` for Python
`None`, `some ts` for a list) together with the warning messages logged. -/
abbrev HandlerReturn := Option (List EthTokenTransfer) × List String

/-- Warning message of `_handle_transfer` (source lines 70-74). -/
def transferWarning (log : EthReceiptLog) : String :=
  "The number of topics and data parts is not equal to 4 in log " ++
    toString log.log_index ++ " of transaction " ++ log.transaction_hash

/-- Warning message of `_handle_erc1155_transfer` and of the topic-count
check in `_handle_erc1155_batch_transfer` (source lines 95-99, 118-122). -/
def erc1155Warning (log : EthReceiptLog) : String :=
  "The number of topics and data parts is not equal to 6 in log " ++
    toString log.log_index ++ " of transaction " ++ log.transaction_hash

/-- Warning message of the ids/values length-mismatch check in
`_handle_erc1155_batch_transfer` (source lines 137-141). -/
def batchMismatchWarning (log : EthReceiptLog) : String :=
  "The number of ids and values is not equal in log " ++
    toString log.log_index ++ " of transaction " ++ log.transaction_hash

/-- `_handle_transfer`: requires exactly 4 words on the tape
(signature, from, to, value), else warns and returns `None`. -/
def handle_transfer (receipt_log : EthReceiptLog) (topics : List String) :
    HandlerReturn :=
  let topics_with_data := topics ++ split_to_words receipt_log.data
  match topics_with_data with
  | [_, w1, w2, w3] =>
    (some [{ token_address := to_normalized_address receipt_log.address
             from_address := word_to_address (some w1)
             to_address := word_to_address (some w2)
             value := hex_to_dec w3
             token_id := none
             transaction_hash := receipt_log.transaction_hash
             log_index := receipt_log.log_index
             block_number := receipt_log.block_number }], [])
  | _ => (none, [transferWarning receipt_log])

/-- `_handle_erc1155_transfer`: requires exactly 6 words on the tape of
which exactly 4 come from topics (signature, operator, from, to, id,
value), else warns and returns `None`. -/
def handle_erc1155_transfer (receipt_log : EthReceiptLog) (topics : List String) :
    HandlerReturn :=
  let topics_with_data := topics ++ split_to_words receipt_log.data
  match topics_with_data with
  | [_, _, w2, w3, w4, w5] =>
    if topics.length = 4 then
      (some [{ token_address := to_normalized_address receipt_log.address
               from_address := word_to_address (some w2)
               to_address := word_to_address (some w3)
               value := hex_to_dec w5
               token_id := some (hex_to_dec w4)
               transaction_hash := receipt_log.transaction_hash
               log_index := receipt_log.log_index
               block_number := receipt_log.block_number }], [])
    else (none, [erc1155Warning receipt_log])
  | _ => (none, [erc1155Warning receipt_log])

/-- One iteration of the batch loop (source lines 144-165): reads the
token id at tape index `6 + 1 + i` and the value at
`6 + ids_count + 1 + i + 1`; an out-of-range read raises. -/
def batch_record (receipt_log : EthReceiptLog) (topics_with_data : List String)
    (ids_count i : Nat) : PyResult EthTokenTransfer :=
  match topics_with_data.get? (6 + 1 + i),
        topics_with_data.get? (6 + ids_count + 1 + i + 1),
        topics_with_data.get? 2, topics_with_data.get? 3 with
  | some wid, some wval, some w2, some w3 =>
    .ok { token_address := to_normalized_address receipt_log.address
          from_address := word_to_address (some w2)
          to_address := word_to_address (some w3)
          value := hex_to_dec wval
          token_id := some (hex_to_dec wid)
          transaction_hash := receipt_log.transaction_hash
          log_index := receipt_log.log_index
          block_number := receipt_log.block_number }
  | _, _, _, _ => .exn

/-- Sequences a list of fallible computations, stopping at the first
exception (Python raises out of the loop). -/
def mapPyResult {α β : Type} (f : α → PyResult β) : List α → PyResult (List β)
  | [] => .ok []
  | a :: as =>
    match f a with
    | .exn => .exn
    | .ok b =>
      match mapPyResult f as with
      | .exn => .exn
      | .ok bs => .ok (b :: bs)

/-- `_handle_erc1155_batch_transfer`: requires exactly 4 topics, then reads
the ids-array length at tape index 6 and the values-array length at
`6 + ids_count + 1`; on mismatch warns and returns `None`, otherwise
emits one record per id/value pair.  Tape reads are unchecked in the
source and raise `IndexError` when out of range. -/
def handle_erc1155_batch_transfer (receipt_log : EthReceiptLog)
    (topics : List String) : PyResult HandlerReturn :=
  let topics_with_data := topics ++ split_to_words receipt_log.data
  if topics.length ≠ 4 then
    .ok (none, [erc1155Warning receipt_log])
  else
    match topics_with_data.get? 6 with
    | none => .exn
    | some w6 =>
      let ids_count := hex_to_dec w6
      match topics_with_data.get? (6 + ids_count + 1) with
      | none => .exn
      | some wvc =>
        let values_count := hex_to_dec wvc
        if ids_count ≠ values_count then
          .ok (none, [batchMismatchWarning receipt_log])
        else
          match mapPyResult (batch_record receipt_log topics_with_data ids_count)
              (List.range ids_count) with
          | .exn => .exn
          | .ok ts => .ok (some ts, [])

/-- `extract_transfer_from_log`: returns `None` (no warning) for absent or
empty topics, dispatches on the casefolded first topic, and
returns `None` (no warning) for an unrecognized signature. -/
def extract_transfer_from_log (receipt_log : EthReceiptLog) :
    PyResult HandlerReturn :=
  match receipt_log.topics with
  | none => .ok (none, [])
  | some [] => .ok (none, [])
  | some (t0 :: rest) =>
    if casefold t0 = TRANSFER_EVENT_TOPIC then
      .ok (handle_transfer receipt_log (t0 :: rest))
    else if casefold t0 = TRANSFER_ERC1155_EVENT_TOPIC then
      .ok (handle_erc1155_transfer receipt_log (t0 :: rest))
    else if casefold t0 = TRANSFER_BATCH_ERC1155_EVENT_TOPIC then
      handle_erc1155_batch_transfer receipt_log (t0 :: rest)
    else
      .ok (none, [])

/-! ## Helper lemmas -/

theorem chunkListFuel_nil (width fuel : Nat) : chunkListFuel width fuel [] = [] := by
  cases fuel <;> simp [chunkListFuel]

theorem chunkListFuel_flatten (width : Nat) (hw : width ≠ 0) :
    ∀ (fuel : Nat) (l : List Char), l.length ≤ fuel →
      (chunkListFuel width fuel l).flatten = l := by
  intro fuel
  induction fuel with
  | zero =>
    intro l hl
    have : l = [] := List.eq_nil_of_length_eq_zero (Nat.le_zero.mp hl)
    simp [this, chunkListFuel]
  | succ fuel ih =>
    intro l hl
    by_cases h : l = []
    · simp [h, chunkListFuel]
    · rw [chunkListFuel, if_neg (by simp [h, hw])]
      rw [List.flatten_cons, ih (l.drop width)]
      · exact List.take_append_drop width l
      · have h1 : 1 ≤ l.length := by
          rcases l with _ | ⟨a, l⟩
          · exact absurd rfl h
          · simp
        rw [List.length_drop]
        omega

theorem chunkListFuel_ne_nil (width fuel : Nat) (l : List Char)
    (h : chunkListFuel width fuel l ≠ []) : l ≠ [] := by
  intro hl
  exact h (hl ▸ chunkListFuel_nil width fuel)

theorem chunkListFuel_mem_length (width : Nat) :
    ∀ (fuel : Nat) (l : List Char), ∀ c ∈ chunkListFuel width fuel l,
      c.length ≤ width ∧ c ≠ [] := by
  intro fuel
  induction fuel with
  | zero => intro l c hc; simp [chunkListFuel] at hc
  | succ fuel ih =>
    intro l c hc
    by_cases h : l = [] ∨ width = 0
    · simp [chunkListFuel, h] at hc
    · rw [chunkListFuel, if_neg (by simp [not_or.mp h])] at hc
      rcases List.mem_cons.mp hc with rfl | hc
      · constructor
        · rw [List.length_take]; omega
        · have : l ≠ [] := (not_or.mp h).1
          have hw : width ≠ 0 := (not_or.mp h).2
          rcases l with _ | ⟨a, l⟩
          · exact absurd rfl this
          · rcases width with _ | width
            · exact absurd rfl hw
            · simp [List.take]
      · exact ih (l.drop width) c hc

theorem chunkListFuel_dropLast_length (width : Nat) :
    ∀ (fuel : Nat) (l : List Char), ∀ c ∈ (chunkListFuel width fuel l).dropLast,
      c.length = width := by
  intro fuel
  induction fuel with
  | zero => intro l c hc; simp [chunkListFuel] at hc
  | succ fuel ih =>
    intro l c hc
    by_cases h : l = [] ∨ width = 0
    · simp [chunkListFuel, h] at hc
    · rw [chunkListFuel, if_neg (by simp [not_or.mp h])] at hc
      by_cases he : chunkListFuel width fuel (l.drop width) = []
      · rw [he] at hc
        simp at hc
      · rw [List.dropLast_cons_of_ne_nil he] at hc
        rcases List.mem_cons.mp hc with rfl | hc
        · have hd : l.drop width ≠ [] := chunkListFuel_ne_nil _ _ _ he
          have hlen : width < l.length := by
            by_contra hcon
            exact hd (List.drop_eq_nil_iff.mpr (by omega))
          rw [List.length_take]
          omega
        · exact ih (l.drop width) c hc

theorem mapPyResult_ok {α β : Type} (f : α → PyResult β) (g : α → β) :
    ∀ l : List α, (∀ a ∈ l, f a = .ok (g a)) → mapPyResult f l = .ok (l.map g) := by
  intro l
  induction l with
  | nil => intro _; rfl
  | cons a as ih =>
    intro h
    rw [mapPyResult, h a (List.mem_cons_self a as),
      ih (fun x hx => h x (List.mem_cons_of_mem a hx))]
    rfl

theorem mapPyResult_ok_mem {α β : Type} (f : α → PyResult β) :
    ∀ (l : List α) (bs : List β), mapPyResult f l = .ok bs →
      ∀ b ∈ bs, ∃ a ∈ l, f a = .ok b := by
  intro l
  induction l with
  | nil =>
    intro bs h b hb
    rw [mapPyResult] at h
    cases h
    simp at hb
  | cons a as ih =>
    intro bs h b hb
    rw [mapPyResult] at h
    cases hfa : f a with
    | exn => rw [hfa] at h; cases h
    | ok b0 =>
      rw [hfa] at h
      cases hrest : mapPyResult f as with
      | exn => rw [hrest] at h; cases h
      | ok bs0 =>
        rw [hrest] at h
        cases h
        rcases List.mem_cons.mp hb with rfl | hb
        · exact ⟨a, List.mem_cons_self a as, hfa⟩
        · obtain ⟨a0, ha0, hfa0⟩ := ih bs0 hrest b hb
          exact ⟨a0, List.mem_cons_of_mem a ha0, hfa0⟩

theorem get?_eq_some_getD {α : Type} (l : List α) (d : α) (n : Nat)
    (h : n < l.length) : l.get? n = some (l.getD n d) := by
  rw [List.getD_eq_getElem?_getD]
  rcases List.getElem?_eq_some_iff.mpr ⟨h, rfl⟩ with hx
  rw [List.get?_eq_getElem?, hx]
  rfl

theorem word_to_address_some_normalized (p : String) :
    ∃ a, word_to_address (some p) = some (to_normalized_address a) := by
  rw [word_to_address]
  by_cases h : 40 ≤ p.length
  · exact ⟨_, by rw [if_pos h]⟩
  · exact ⟨p, by rw [if_neg h]⟩

theorem foldl_append_data (l : List String) :
    ∀ init : String, (l.foldl (fun r s => r ++ s) init).data =
      init.data ++ (l.map String.data).flatten := by
  induction l with
  | nil => intro init; simp
  | cons s l ih =>
    intro init
    rw [List.foldl_cons, ih (init ++ s)]
    show (init.data ++ s.data) ++ _ = _
    simp

theorem string_join_data (l : List String) :
    (String.join l).data = (l.map String.data).flatten := by
  show (l.foldl (fun r s => r ++ s) "").data = _
  rw [foldl_append_data]
  rfl

/-! ## Example inputs used by witnesses and counterexamples -/

/-- A log with absent topics. -/
def exLogNoTopics : EthReceiptLog :=
  { address := "0xA"
    topics := none
    data := "0x"
    transaction_hash := "0xt"
    log_index := 0
    block_number := 1 }

/-- A 40-character word consisting of the "0x" prefix and only 38 further
characters. -/
def cexAddrWord : String := "0xaaaaaaaaaaaaaaaaaaaaaaaaaaaaaaaaaaaaaa"

/-- A full 32-byte word (66 characters with the prefix). -/
def exAddrWord66 : String :=
  "0x00000000000000000000000000000000000000000000000000000000000000ff"

/-- A data blob holding one and a half 32-byte words. -/
def exSplitData : String :=
  "0x11111111111111111111111111111111111111111111111111111111111111112222222222222222222222222222222222"

/-! ## Claims -/

/-- C4: for every log whose `topics` is null or empty, or whose first topic
(casefolded) matches none of the three known event-signature constants,
`extract_transfer_from_log` returns `None`; no warning is emitted on any of
these paths. -/
theorem extract_dispatcher_rejects (log : EthReceiptLog) :
    ((log.topics = none ∨ log.topics = some []) →
      extract_transfer_from_log log = .ok (none, [])) ∧
    (∀ t0 rest, log.topics = some (t0 :: rest) →
      casefold t0 ≠ TRANSFER_EVENT_TOPIC →
      casefold t0 ≠ TRANSFER_ERC1155_EVENT_TOPIC →
      casefold t0 ≠ TRANSFER_BATCH_ERC1155_EVENT_TOPIC →
      extract_transfer_from_log log = .ok (none, [])) := by
  constructor
  · rintro (h | h) <;> simp [extract_transfer_from_log, h]
  · intro t0 rest htop h1 h2 h3
    simp [extract_transfer_from_log, htop, h1, h2, h3]

/-- C4 witness: a log with `topics = None` yields `None` and no warning. -/
theorem extract_dispatcher_rejects_witness :
    extract_transfer_from_log exLogNoTopics = .ok (none, []) :=
  (extract_dispatcher_rejects exLogNoTopics).1 (Or.inl rfl)

/-- C7 counterexample: the input "abcd" does not start with "0x", yet
`split_to_words` discards its first two characters, returning ["0xcd"]
instead of the claimed ["0xabcd"]. -/
theorem split_to_words_cex :
    "abcd".data.take 2 ≠ ['0', 'x'] ∧
    split_to_words "abcd" = ["0xcd"] ∧
    split_to_words "abcd" ≠ ["0xabcd"] := by decide

/-- C7 (amended): `split_to_words` returns the empty list when the input
has length at most 2, and otherwise unconditionally discards the input's
first two characters — whether or not they are "0x" — and partitions the
remainder into consecutive 64-character chunks (every chunk but the last
is full, the last is nonempty and at most 64 characters), each re-prefixed
with "0x".  The originally claimed contract therefore holds exactly for
inputs that do start with "0x". -/
theorem split_to_words_amended (data : String) :
    (data.length ≤ 2 → split_to_words data = []) ∧
    (2 < data.length →
      (∀ w ∈ split_to_words data, w.data.take 2 = ['0', 'x']) ∧
      String.join ((split_to_words data).map (fun w => String.mk (w.data.drop 2))) =
        String.mk (data.data.drop 2) ∧
      (∀ w ∈ (split_to_words data).dropLast, w.length = 66) ∧
      (∀ w ∈ split_to_words data, 2 < w.length ∧ w.length ≤ 66)) := by
  constructor
  · intro h
    rw [split_to_words, if_neg (by omega)]
  · intro h
    have hrw : split_to_words data =
        (chunkList (data.data.drop 2) 64).map (fun c => "0x" ++ String.mk c) := by
      rw [split_to_words, if_pos h, chunk_string, List.map_map]
      rfl
    refine ⟨?_, ?_, ?_, ?_⟩
    · intro w hw
      rw [hrw] at hw
      obtain ⟨c, _, rfl⟩ := List.mem_map.mp hw
      rfl
    · rw [hrw]
      apply String.ext
      rw [string_join_data]
      rw [List.map_map, List.map_map]
      calc ((chunkList (data.data.drop 2) 64).map
              (String.data ∘ (fun w => String.mk (w.data.drop 2)) ∘
                fun c => "0x" ++ String.mk c)).flatten
          = ((chunkList (data.data.drop 2) 64).map id).flatten := by
            congr 1
        _ = (chunkList (data.data.drop 2) 64).flatten := by rw [List.map_id]
        _ = data.data.drop 2 := by
            apply chunkListFuel_flatten 64 (by omega)
            exact Nat.le_refl _
    · intro w hw
      rw [hrw, ← List.map_dropLast] at hw
      obtain ⟨c, hc, rfl⟩ := List.mem_map.mp hw
      have hlen : c.length = 64 := chunkListFuel_dropLast_length 64 _ _ c hc
      show ('0' :: 'x' :: c).length = 66
      simp [hlen]
    · intro w hw
      rw [hrw] at hw
      obtain ⟨c, hc, rfl⟩ := List.mem_map.mp hw
      obtain ⟨hle, hne⟩ := chunkListFuel_mem_length 64 _ _ c hc
      have hpos : 0 < c.length := List.length_pos.mpr hne
      constructor
      · show 2 < ('0' :: 'x' :: c).length
        simp
        omega
      · show ('0' :: 'x' :: c).length ≤ 66
        simp
        omega

/-- C7 witness: on a 98-character blob starting with "0x", the words carry
the "0x" prefix, concatenate back to the stripped blob, and the first word
is full-width while the last is short. -/
theorem split_to_words_amended_witness :
    2 < exSplitData.length ∧
    ((∀ w ∈ split_to_words exSplitData, w.data.take 2 = ['0', 'x']) ∧
      String.join ((split_to_words exSplitData).map (fun w => String.mk (w.data.drop 2))) =
        String.mk (exSplitData.data.drop 2) ∧
      (∀ w ∈ (split_to_words exSplitData).dropLast, w.length = 66) ∧
      (∀ w ∈ split_to_words exSplitData, 2 < w.length ∧ w.length ≤ 66)) :=
  ⟨by decide, (split_to_words_amended exSplitData).2 (by decide)⟩

/-- C8 counterexample: `cexAddrWord` starts with "0x" and has only 38
characters after the prefix, so the claim requires normalizing the whole
input; the code instead takes the branch for long words (total length 40)
and duplicates the prefix. -/
theorem word_to_address_cex :
    cexAddrWord.data.take 2 = ['0', 'x'] ∧
    cexAddrWord.length - 2 < 40 ∧
    word_to_address (some cexAddrWord) ≠ some (to_normalized_address cexAddrWord) := by
  decide

/-- C8 (amended): `word_to_address` propagates `None`; the 40-character
threshold is on the *total* length of the word (prefix included), not on
the length after the prefix: words of total length at least 40 are cut to
their last 40 characters and normalized behind a fresh "0x", strictly
shorter words are normalized whole. -/
theorem word_to_address_amended (p : String) :
    word_to_address none = none ∧
    (40 ≤ p.length →
      word_to_address (some p) =
        some (to_normalized_address
          ("0x" ++ String.mk ((p.data.reverse.take 40).reverse)))) ∧
    (p.length < 40 → word_to_address (some p) = some (to_normalized_address p)) := by
  refine ⟨rfl, ?_, ?_⟩
  · intro h
    have hrev : (p.data.reverse.take 40).reverse = p.data.drop (p.length - 40) := by
      rw [List.reverse_take]
      simp [List.length_reverse, List.reverse_reverse]
    rw [hrev]
    show (if 40 ≤ p.length then _ else _) = _
    rw [if_pos h]
  · intro h
    show (if 40 ≤ p.length then _ else _) = _
    rw [if_neg (by omega)]

/-- C8 witness: a full 66-character word is cut down to its last 40
characters. -/
theorem word_to_address_amended_witness :
    word_to_address none = none ∧
    40 ≤ exAddrWord66.length ∧
    word_to_address (some exAddrWord66) =
      some (to_normalized_address
        ("0x" ++ String.mk ((exAddrWord66.data.reverse.take 40).reverse))) :=
  ⟨(word_to_address_amended exAddrWord66).1, by decide,
    (word_to_address_amended exAddrWord66).2.1 (by decide)⟩

theorem sig_constants_distinct :
    TRANSFER_EVENT_TOPIC ≠ TRANSFER_ERC1155_EVENT_TOPIC ∧
    TRANSFER_EVENT_TOPIC ≠ TRANSFER_BATCH_ERC1155_EVENT_TOPIC ∧
    TRANSFER_ERC1155_EVENT_TOPIC ≠ TRANSFER_BATCH_ERC1155_EVENT_TOPIC := by
  refine ⟨?_, ?_, ?_⟩ <;> decide

theorem extract_dispatch_transfer (log : EthReceiptLog) (t0 : String)
    (rest : List String) (htop : log.topics = some (t0 :: rest))
    (hsig : casefold t0 = TRANSFER_EVENT_TOPIC) :
    extract_transfer_from_log log = .ok (handle_transfer log (t0 :: rest)) := by
  simp [extract_transfer_from_log, htop, hsig]

theorem extract_dispatch_erc1155 (log : EthReceiptLog) (t0 : String)
    (rest : List String) (htop : log.topics = some (t0 :: rest))
    (hsig : casefold t0 = TRANSFER_ERC1155_EVENT_TOPIC) :
    extract_transfer_from_log log = .ok (handle_erc1155_transfer log (t0 :: rest)) := by
  simp [extract_transfer_from_log, htop, hsig, sig_constants_distinct.1.symm]

theorem extract_dispatch_batch (log : EthReceiptLog) (t0 : String)
    (rest : List String) (htop : log.topics = some (t0 :: rest))
    (hsig : casefold t0 = TRANSFER_BATCH_ERC1155_EVENT_TOPIC) :
    extract_transfer_from_log log = handle_erc1155_batch_transfer log (t0 :: rest) := by
  simp [extract_transfer_from_log, htop, hsig, sig_constants_distinct.2.1.symm,
    sig_constants_distinct.2.2.symm]

theorem handle_transfer_ne4 (log : EthReceiptLog) (topics : List String)
    (h : (topics ++ split_to_words log.data).length ≠ 4) :
    handle_transfer log topics = (none, [transferWarning log]) := by
  rcases tape : topics ++ split_to_words log.data with
    _ | ⟨a, _ | ⟨b, _ | ⟨c, _ | ⟨d, _ | ⟨e, t⟩⟩⟩⟩⟩ <;>
    (rw [tape] at h
     simp only [handle_transfer, tape]
     try first
       | rfl
       | (exfalso; exact h (by rfl)))

theorem handle_transfer_eq4 (log : EthReceiptLog) (topics : List String)
    (w0 w1 w2 w3 : String)
    (h : topics ++ split_to_words log.data = [w0, w1, w2, w3]) :
    handle_transfer log topics =
      (some [{ token_address := to_normalized_address log.address
               from_address := word_to_address (some w1)
               to_address := word_to_address (some w2)
               value := hex_to_dec w3
               token_id := none
               transaction_hash := log.transaction_hash
               log_index := log.log_index
               block_number := log.block_number }], []) := by
  simp only [handle_transfer, h]

/-- C5: for a log whose first topic casefolds to the single-transfer
signature, a tape of length other than 4 yields `None` with one warning
naming the log index and transaction hash, while a tape of exactly 4 words
yields exactly one record with `from_address` from word 1, `to_address`
from word 2, `value` decoded from word 3 and no `token_id`. -/
theorem extract_single_transfer_spec (log : EthReceiptLog) (t0 : String)
    (rest : List String)
    (htop : log.topics = some (t0 :: rest))
    (hsig : casefold t0 = TRANSFER_EVENT_TOPIC) :
    (((t0 :: rest) ++ split_to_words log.data).length ≠ 4 →
      extract_transfer_from_log log = .ok (none, [transferWarning log])) ∧
    (∀ w1 w2 w3, (t0 :: rest) ++ split_to_words log.data = [t0, w1, w2, w3] →
      extract_transfer_from_log log =
        .ok (some [{ token_address := to_normalized_address log.address
                     from_address := word_to_address (some w1)
                     to_address := word_to_address (some w2)
                     value := hex_to_dec w3
                     token_id := none
                     transaction_hash := log.transaction_hash
                     log_index := log.log_index
                     block_number := log.block_number }], [])) := by
  constructor
  · intro h
    rw [extract_dispatch_transfer log t0 rest htop hsig,
      handle_transfer_ne4 log (t0 :: rest) h]
  · intro w1 w2 w3 h
    rw [extract_dispatch_transfer log t0 rest htop hsig,
      handle_transfer_eq4 log (t0 :: rest) t0 w1 w2 w3 h]

/-- Operator word used in ERC1155 examples. -/
def exW1 : String := "0x0000000000000000000000000000000000000000000000000000000000000001"

/-- Example from-address word. -/
def exW17 : String := "0x0000000000000000000000000000000000000000000000000000000000000011"

/-- Example to-address word. -/
def exW18 : String := "0x0000000000000000000000000000000000000000000000000000000000000012"

/-- Example value word (decimal 77). -/
def exW77 : String := "0x000000000000000000000000000000000000000000000000000000000000004d"

/-- A conforming ERC20-style Transfer log: three topics (with an
upper-case signature, exercising casefolding) and one data word. -/
def exLogTransfer : EthReceiptLog :=
  { address := "0xTokenAddr"
    topics := some ["0xDDF252AD1BE2C89B69C2B068FC378DAA952BA7F163C4A11628F55A4DF523B3EF",
      exW17, exW18]
    data := "0x000000000000000000000000000000000000000000000000000000000000004d"
    transaction_hash := "0xtxhash"
    log_index := 5
    block_number := 100 }

/-- C5 witness: the conforming ERC20-style log yields exactly one record
with the claimed fields. -/
theorem extract_single_transfer_spec_witness :
    extract_transfer_from_log exLogTransfer =
      .ok (some [{ token_address := to_normalized_address exLogTransfer.address
                   from_address := word_to_address (some exW17)
                   to_address := word_to_address (some exW18)
                   value := hex_to_dec exW77
                   token_id := none
                   transaction_hash := exLogTransfer.transaction_hash
                   log_index := exLogTransfer.log_index
                   block_number := exLogTransfer.block_number }], []) :=
  (extract_single_transfer_spec exLogTransfer
      "0xDDF252AD1BE2C89B69C2B068FC378DAA952BA7F163C4A11628F55A4DF523B3EF"
      [exW17, exW18] rfl (by decide)).2 exW17 exW18 exW77 (by decide)

theorem handle_erc1155_transfer_eq6 (log : EthReceiptLog) (topics : List String)
    (w0 w1 w2 w3 w4 w5 : String)
    (h : topics ++ split_to_words log.data = [w0, w1, w2, w3, w4, w5])
    (h4 : topics.length = 4) :
    handle_erc1155_transfer log topics =
      (some [{ token_address := to_normalized_address log.address
               from_address := word_to_address (some w2)
               to_address := word_to_address (some w3)
               value := hex_to_dec w5
               token_id := some (hex_to_dec w4)
               transaction_hash := log.transaction_hash
               log_index := log.log_index
               block_number := log.block_number }], []) := by
  simp [handle_erc1155_transfer, h, h4]

theorem handle_erc1155_transfer_reject (log : EthReceiptLog) (topics : List String)
    (h : (topics ++ split_to_words log.data).length ≠ 6 ∨ topics.length ≠ 4) :
    handle_erc1155_transfer log topics = (none, [erc1155Warning log]) := by
  rcases h with h | h
  · rcases tape : topics ++ split_to_words log.data with
      _ | ⟨a, _ | ⟨b, _ | ⟨c, _ | ⟨d, _ | ⟨e, _ | ⟨f, _ | ⟨g, t⟩⟩⟩⟩⟩⟩⟩ <;>
      (rw [tape] at h
       simp only [handle_erc1155_transfer, tape]
       try first
         | rfl
         | (exfalso; exact h (by rfl)))
  · rcases tape : topics ++ split_to_words log.data with
      _ | ⟨a, _ | ⟨b, _ | ⟨c, _ | ⟨d, _ | ⟨e, _ | ⟨f, _ | ⟨g, t⟩⟩⟩⟩⟩⟩⟩ <;>
      (simp only [handle_erc1155_transfer, tape]
       try first
         | rfl
         | (rw [if_neg h]))

/-- C6: for a log whose first topic casefolds to the TransferSingle
signature, the result is exactly one record — with `from_address` from
word 2, `to_address` from word 3, `token_id` from word 4 and `value`
from word 5 — exactly when the tape has 6 words of which exactly 4 are
topics; on any other shape the result is `None` with one warning. -/
theorem extract_erc1155_single_spec (log : EthReceiptLog) (t0 : String)
    (rest : List String)
    (htop : log.topics = some (t0 :: rest))
    (hsig : casefold t0 = TRANSFER_ERC1155_EVENT_TOPIC) :
    (∀ w1 w2 w3 w4 w5,
      (t0 :: rest) ++ split_to_words log.data = [t0, w1, w2, w3, w4, w5] →
      (t0 :: rest).length = 4 →
      extract_transfer_from_log log =
        .ok (some [{ token_address := to_normalized_address log.address
                     from_address := word_to_address (some w2)
                     to_address := word_to_address (some w3)
                     value := hex_to_dec w5
                     token_id := some (hex_to_dec w4)
                     transaction_hash := log.transaction_hash
                     log_index := log.log_index
                     block_number := log.block_number }], [])) ∧
    (((t0 :: rest) ++ split_to_words log.data).length ≠ 6 ∨
        (t0 :: rest).length ≠ 4 →
      extract_transfer_from_log log = .ok (none, [erc1155Warning log])) := by
  constructor
  · intro w1 w2 w3 w4 w5 h h4
    rw [extract_dispatch_erc1155 log t0 rest htop hsig,
      handle_erc1155_transfer_eq6 log (t0 :: rest) t0 w1 w2 w3 w4 w5 h h4]
  · intro h
    rw [extract_dispatch_erc1155 log t0 rest htop hsig,
      handle_erc1155_transfer_reject log (t0 :: rest) h]

/-- A conforming ERC1155 TransferSingle log: four topics and two data
words (id 8, value 3). -/
def exLogSingle1155 : EthReceiptLog :=
  { address := "0xTokenAddr"
    topics := some [TRANSFER_ERC1155_EVENT_TOPIC, exW1, exW17, exW18]
    data := "0x00000000000000000000000000000000000000000000000000000000000000080000000000000000000000000000000000000000000000000000000000000003"
    transaction_hash := "0xtxhash"
    log_index := 5
    block_number := 100 }

/-- C6 witness: the conforming TransferSingle log yields exactly one
record with id from word 4 and value from word 5. -/
theorem extract_erc1155_single_spec_witness :
    extract_transfer_from_log exLogSingle1155 =
      .ok (some [{ token_address := to_normalized_address exLogSingle1155.address
                   from_address := word_to_address (some exW17)
                   to_address := word_to_address (some exW18)
                   value := hex_to_dec "0x0000000000000000000000000000000000000000000000000000000000000003"
                   token_id := some (hex_to_dec "0x0000000000000000000000000000000000000000000000000000000000000008")
                   transaction_hash := exLogSingle1155.transaction_hash
                   log_index := exLogSingle1155.log_index
                   block_number := exLogSingle1155.block_number }], []) :=
  (extract_erc1155_single_spec exLogSingle1155 TRANSFER_ERC1155_EVENT_TOPIC
      [exW1, exW17, exW18] rfl (by decide)).1
    exW1 exW17 exW18 "0x0000000000000000000000000000000000000000000000000000000000000008" "0x0000000000000000000000000000000000000000000000000000000000000003" (by decide) rfl

/-- C3: for a log whose first topic casefolds to the batch signature, with
exactly 4 topics, when the ids-array length read at tape index 6 differs
from the values-array length read at tape index 6+N+1, the extractor
returns `None` together with exactly one warning naming the log index and
transaction hash. -/
theorem extract_batch_mismatch_warns (log : EthReceiptLog) (t0 : String)
    (rest : List String) (w6 wvc : String)
    (htop : log.topics = some (t0 :: rest))
    (hsig : casefold t0 = TRANSFER_BATCH_ERC1155_EVENT_TOPIC)
    (hlen4 : (t0 :: rest).length = 4)
    (h6 : ((t0 :: rest) ++ split_to_words log.data).get? 6 = some w6)
    (hvc : ((t0 :: rest) ++ split_to_words log.data).get?
      (6 + hex_to_dec w6 + 1) = some wvc)
    (hne : hex_to_dec w6 ≠ hex_to_dec wvc) :
    extract_transfer_from_log log = .ok (none, [batchMismatchWarning log]) := by
  rw [extract_dispatch_batch log t0 rest htop hsig]
  simp at h6 hvc
  simp [handle_erc1155_batch_transfer, hlen4, h6, hvc, hne]

/-- A batch log with 2 ids but 3 announced values. -/
def exLogBatchMismatch : EthReceiptLog :=
  { address := "0xTokenAddr"
    topics := some [TRANSFER_BATCH_ERC1155_EVENT_TOPIC, exW1, exW17, exW18]
    data := "0x000000000000000000000000000000000000000000000000000000000000004000000000000000000000000000000000000000000000000000000000000000c0000000000000000000000000000000000000000000000000000000000000000200000000000000000000000000000000000000000000000000000000000000080000000000000000000000000000000000000000000000000000000000000007000000000000000000000000000000000000000000000000000000000000000300000000000000000000000000000000000000000000000000000000000000030000000000000000000000000000000000000000000000000000000000000001"
    transaction_hash := "0xtxhash"
    log_index := 5
    block_number := 100 }

/-- C3 witness: the mismatched batch log yields `None` and exactly the
one mismatch warning. -/
theorem extract_batch_mismatch_warns_witness :
    extract_transfer_from_log exLogBatchMismatch =
      .ok (none, [batchMismatchWarning exLogBatchMismatch]) :=
  extract_batch_mismatch_warns exLogBatchMismatch
    TRANSFER_BATCH_ERC1155_EVENT_TOPIC [exW1, exW17, exW18]
    "0x0000000000000000000000000000000000000000000000000000000000000002" "0x0000000000000000000000000000000000000000000000000000000000000003" rfl (by decide) rfl (by decide) (by decide) (by decide)

/-- C10: for a log whose first topic casefolds to the batch signature,
with exactly 4 topics and both announced array lengths equal to zero, the
extractor returns an *empty list* of records — a distinct outcome from the
`None` of every rejection path — and emits no warning. -/
theorem extract_batch_empty_records (log : EthReceiptLog) (t0 : String)
    (rest : List String) (w6 w7 : String)
    (htop : log.topics = some (t0 :: rest))
    (hsig : casefold t0 = TRANSFER_BATCH_ERC1155_EVENT_TOPIC)
    (hlen4 : (t0 :: rest).length = 4)
    (h6 : ((t0 :: rest) ++ split_to_words log.data).get? 6 = some w6)
    (h7 : ((t0 :: rest) ++ split_to_words log.data).get? 7 = some w7)
    (hz6 : hex_to_dec w6 = 0)
    (hz7 : hex_to_dec w7 = 0) :
    extract_transfer_from_log log = .ok (some [], []) := by
  rw [extract_dispatch_batch log t0 rest htop hsig]
  simp at h6 h7
  simp [handle_erc1155_batch_transfer, hlen4, h6, hz6, h7, hz7, mapPyResult]

/-- A batch log announcing zero ids and zero values. -/
def exLogBatchZero : EthReceiptLog :=
  { address := "0xTokenAddr"
    topics := some [TRANSFER_BATCH_ERC1155_EVENT_TOPIC, exW1, exW17, exW18]
    data := "0x000000000000000000000000000000000000000000000000000000000000004000000000000000000000000000000000000000000000000000000000000000c000000000000000000000000000000000000000000000000000000000000000000000000000000000000000000000000000000000000000000000000000000000"
    transaction_hash := "0xtxhash"
    log_index := 5
    block_number := 100 }

/-- C10 witness: the zero-length batch log yields `some []` with no
warning. -/
theorem extract_batch_empty_records_witness :
    extract_transfer_from_log exLogBatchZero = .ok (some [], []) :=
  extract_batch_empty_records exLogBatchZero
    TRANSFER_BATCH_ERC1155_EVENT_TOPIC [exW1, exW17, exW18]
    "0x0000000000000000000000000000000000000000000000000000000000000000" "0x0000000000000000000000000000000000000000000000000000000000000000" rfl (by decide) rfl (by decide) (by decide)
    (by decide) (by decide)

/-- A batch log with four topics but an empty data blob: the tape has only
4 words, so the unchecked read at index 6 is out of range. -/
def cexLogBatchShortTape : EthReceiptLog :=
  { address := "0xTokenAddr"
    topics := some [TRANSFER_BATCH_ERC1155_EVENT_TOPIC, exW1, exW17, exW18]
    data := ""
    transaction_hash := "0xtxhash"
    log_index := 5
    block_number := 100 }

/-- C2 counterexample: a batch-signature log with 4 topics and empty data
makes the extractor raise (an `IndexError` from the unchecked tape read at
index 6), refuting the claim that no input can raise. -/
theorem extract_can_raise_cex :
    extract_transfer_from_log cexLogBatchShortTape = .exn := by decide

theorem handle_transfer_warnings_le (log : EthReceiptLog)
    (topics : List String) : (handle_transfer log topics).2.length ≤ 1 := by
  rw [handle_transfer]
  rcases topics ++ split_to_words log.data with
    _ | ⟨a, _ | ⟨b, _ | ⟨c, _ | ⟨d, _ | ⟨e, t⟩⟩⟩⟩⟩ <;> simp

theorem handle_erc1155_transfer_warnings_le (log : EthReceiptLog)
    (topics : List String) : (handle_erc1155_transfer log topics).2.length ≤ 1 := by
  rw [handle_erc1155_transfer]
  rcases topics ++ split_to_words log.data with
    _ | ⟨a, _ | ⟨b, _ | ⟨c, _ | ⟨d, _ | ⟨e, _ | ⟨f, _ | ⟨g, t⟩⟩⟩⟩⟩⟩⟩ <;>
    (simp only []
     try split) <;> simp

/-- C2 (amended): the extractor never raises *except* in the TransferBatch
handler, whose unchecked tape reads can hit an out-of-range index: on every
log whose first topic does not casefold to the batch signature (including
absent/empty topics, unrecognized signatures and both fixed-shape
handlers), the call returns normally, with at most one warning logged. -/
theorem extract_no_raise_outside_batch (log : EthReceiptLog)
    (h : ∀ t0 rest, log.topics = some (t0 :: rest) →
      casefold t0 ≠ TRANSFER_BATCH_ERC1155_EVENT_TOPIC) :
    ∃ ts ws, extract_transfer_from_log log = .ok (ts, ws) ∧ ws.length ≤ 1 := by
  rcases hts : log.topics with _ | ⟨_ | ⟨t0, rest⟩⟩
  · exact ⟨none, [], by simp [extract_transfer_from_log, hts], by simp⟩
  · exact ⟨none, [], by simp [extract_transfer_from_log, hts], by simp⟩
  · have hb := h t0 rest hts
    by_cases h1 : casefold t0 = TRANSFER_EVENT_TOPIC
    · rcases hh : handle_transfer log (t0 :: rest) with ⟨ts, ws⟩
      refine ⟨ts, ws, by rw [extract_dispatch_transfer log t0 rest hts h1, hh], ?_⟩
      have := handle_transfer_warnings_le log (t0 :: rest)
      rw [hh] at this
      exact this
    · by_cases h2 : casefold t0 = TRANSFER_ERC1155_EVENT_TOPIC
      · rcases hh : handle_erc1155_transfer log (t0 :: rest) with ⟨ts, ws⟩
        refine ⟨ts, ws, by rw [extract_dispatch_erc1155 log t0 rest hts h2, hh], ?_⟩
        have := handle_erc1155_transfer_warnings_le log (t0 :: rest)
        rw [hh] at this
        exact this
      · exact ⟨none, [], by simp [extract_transfer_from_log, hts, h1, h2, hb], by simp⟩

/-- C2 witness: the conforming ERC20-style log returns normally with no
warning. -/
theorem extract_no_raise_outside_batch_witness :
    ∃ ts ws, extract_transfer_from_log exLogTransfer = .ok (ts, ws) ∧
      ws.length ≤ 1 :=
  extract_no_raise_outside_batch exLogTransfer (by
    intro t0 rest heq
    have heq2 : (some ["0xDDF252AD1BE2C89B69C2B068FC378DAA952BA7F163C4A11628F55A4DF523B3EF",
        exW17, exW18] : Option (List String)) = some (t0 :: rest) := heq
    injection heq2 with hlist
    injection hlist with hhead _
    rw [← hhead]
    decide)

/-- C1: for a log whose first topic casefolds to the batch signature, with
exactly 4 topics and a well-formed tape — the ids length `N` read at index
6 equals the values length read at index `6+N+1` and all indexed words
exist — the extractor returns exactly `N` records in order, record `i`
taking its `token_id` from tape index `6+1+i` and its `value` from tape
index `6+N+1+i+1`, all records sharing `from_address` from word 2,
`to_address` from word 3 and the log's normalized address. -/
theorem extract_batch_success (log : EthReceiptLog) (t0 t1 t2 t3 : String)
    (N : Nat) (tape : List String)
    (htop : log.topics = some [t0, t1, t2, t3])
    (hsig : casefold t0 = TRANSFER_BATCH_ERC1155_EVENT_TOPIC)
    (htape : tape = [t0, t1, t2, t3] ++ split_to_words log.data)
    (hN : hex_to_dec (tape.getD 6 "") = N)
    (hM : hex_to_dec (tape.getD (6 + N + 1) "") = N)
    (hlen : 6 + 2 * N + 1 < tape.length) :
    extract_transfer_from_log log =
      .ok (some ((List.range N).map (fun i =>
        { token_address := to_normalized_address log.address
          from_address := word_to_address (some t2)
          to_address := word_to_address (some t3)
          value := hex_to_dec (tape.getD (6 + N + 1 + i + 1) "")
          token_id := some (hex_to_dec (tape.getD (6 + 1 + i) ""))
          transaction_hash := log.transaction_hash
          log_index := log.log_index
          block_number := log.block_number })), []) := by
  have h6 : tape.get? 6 = some (tape.getD 6 "") :=
    get?_eq_some_getD tape "" 6 (by omega)
  have h7 : tape.get? (6 + N + 1) = some (tape.getD (6 + N + 1) "") :=
    get?_eq_some_getD tape "" (6 + N + 1) (by omega)
  have hstep : ∀ i ∈ List.range N, batch_record log tape N i =
      .ok { token_address := to_normalized_address log.address
            from_address := word_to_address (some t2)
            to_address := word_to_address (some t3)
            value := hex_to_dec (tape.getD (6 + N + 1 + i + 1) "")
            token_id := some (hex_to_dec (tape.getD (6 + 1 + i) ""))
            transaction_hash := log.transaction_hash
            log_index := log.log_index
            block_number := log.block_number } := by
    intro i hi
    rw [List.mem_range] at hi
    have hid : tape.get? (6 + 1 + i) = some (tape.getD (6 + 1 + i) "") :=
      get?_eq_some_getD tape "" (6 + 1 + i) (by omega)
    have hval : tape.get? (6 + N + 1 + i + 1) =
        some (tape.getD (6 + N + 1 + i + 1) "") :=
      get?_eq_some_getD tape "" (6 + N + 1 + i + 1) (by omega)
    have h2 : tape.get? 2 = some t2 := by rw [htape]; rfl
    have h3 : tape.get? 3 = some t3 := by rw [htape]; rfl
    simp only [batch_record, hid, hval, h2, h3]
  have hmap := mapPyResult_ok (batch_record log tape N) _ (List.range N) hstep
  rw [extract_dispatch_batch log t0 [t1, t2, t3] htop hsig]
  simp only [handle_erc1155_batch_transfer, ← htape]
  rw [if_neg (by simp [htape])]
  simp only [h6, hN, h7, hM, ne_eq, not_true_eq_false, if_false, ite_self]
  rw [hmap]

/-- The spec's N=2 batch example: topics [SIG_C, operator, from, to], data
words [ptr1, ptr2, len=2, id0=8, id1=7, len=2, val0=3, val1=1]. -/
def exLogBatchN2 : EthReceiptLog :=
  { address := "0xTokenAddr"
    topics := some [TRANSFER_BATCH_ERC1155_EVENT_TOPIC, exW1, exW17, exW18]
    data := "0x000000000000000000000000000000000000000000000000000000000000004000000000000000000000000000000000000000000000000000000000000000c0000000000000000000000000000000000000000000000000000000000000000200000000000000000000000000000000000000000000000000000000000000080000000000000000000000000000000000000000000000000000000000000007000000000000000000000000000000000000000000000000000000000000000200000000000000000000000000000000000000000000000000000000000000030000000000000000000000000000000000000000000000000000000000000001"
    transaction_hash := "0xtxhash"
    log_index := 5
    block_number := 100 }

/-- The word tape of the N=2 batch example. -/
def exBatchTapeN2 : List String :=
  [TRANSFER_BATCH_ERC1155_EVENT_TOPIC, exW1, exW17, exW18] ++
    split_to_words exLogBatchN2.data

/-- C1 witness: the N=2 batch example yields two ordered records sharing
from/to/token_address, pairing (id0,val0) and (id1,val1). -/
theorem extract_batch_success_witness :
    extract_transfer_from_log exLogBatchN2 =
      .ok (some ((List.range 2).map (fun i =>
        { token_address := to_normalized_address exLogBatchN2.address
          from_address := word_to_address (some exW17)
          to_address := word_to_address (some exW18)
          value := hex_to_dec (exBatchTapeN2.getD (6 + 2 + 1 + i + 1) "")
          token_id := some (hex_to_dec (exBatchTapeN2.getD (6 + 1 + i) ""))
          transaction_hash := exLogBatchN2.transaction_hash
          log_index := exLogBatchN2.log_index
          block_number := exLogBatchN2.block_number })), []) :=
  extract_batch_success exLogBatchN2 TRANSFER_BATCH_ERC1155_EVENT_TOPIC
    exW1 exW17 exW18 2 exBatchTapeN2 rfl (by decide) rfl (by decide)
    (by decide) (by decide)

theorem handle_transfer_some_inv (log : EthReceiptLog) (topics : List String)
    (ts : List EthTokenTransfer) (ws : List String)
    (h : handle_transfer log topics = (some ts, ws)) :
    ∃ w1 w2 w3, ws = [] ∧ ts =
      [{ token_address := to_normalized_address log.address
         from_address := word_to_address (some w1)
         to_address := word_to_address (some w2)
         value := hex_to_dec w3
         token_id := none
         transaction_hash := log.transaction_hash
         log_index := log.log_index
         block_number := log.block_number }] := by
  rcases tape : topics ++ split_to_words log.data with
    _ | ⟨a, _ | ⟨b, _ | ⟨c, _ | ⟨d, _ | ⟨e, t⟩⟩⟩⟩⟩ <;>
    simp only [handle_transfer, tape] at h <;>
    try exact Option.noConfusion (Prod.ext_iff.mp h).1
  exact ⟨b, c, d, (Prod.ext_iff.mp h).2.symm,
    (Option.some.inj (Prod.ext_iff.mp h).1).symm⟩

theorem handle_erc1155_transfer_some_inv (log : EthReceiptLog)
    (topics : List String) (ts : List EthTokenTransfer) (ws : List String)
    (h : handle_erc1155_transfer log topics = (some ts, ws)) :
    ∃ w2 w3 w4 w5, ws = [] ∧ ts =
      [{ token_address := to_normalized_address log.address
         from_address := word_to_address (some w2)
         to_address := word_to_address (some w3)
         value := hex_to_dec w5
         token_id := some (hex_to_dec w4)
         transaction_hash := log.transaction_hash
         log_index := log.log_index
         block_number := log.block_number }] := by
  rcases tape : topics ++ split_to_words log.data with
    _ | ⟨a, _ | ⟨b, _ | ⟨c, _ | ⟨d, _ | ⟨e, _ | ⟨f, _ | ⟨g, t⟩⟩⟩⟩⟩⟩⟩ <;>
    simp only [handle_erc1155_transfer, tape] at h <;>
    try exact Option.noConfusion (Prod.ext_iff.mp h).1
  split at h
  · exact ⟨c, d, e, f, (Prod.ext_iff.mp h).2.symm,
      (Option.some.inj (Prod.ext_iff.mp h).1).symm⟩
  · exact Option.noConfusion (Prod.ext_iff.mp h).1

theorem batch_record_ok_inv (log : EthReceiptLog) (twd : List String)
    (ids_count i : Nat) (t : EthTokenTransfer)
    (h : batch_record log twd ids_count i = .ok t) :
    ∃ wid wval w2 w3, t =
      { token_address := to_normalized_address log.address
        from_address := word_to_address (some w2)
        to_address := word_to_address (some w3)
        value := hex_to_dec wval
        token_id := some (hex_to_dec wid)
        transaction_hash := log.transaction_hash
        log_index := log.log_index
        block_number := log.block_number } := by
  rw [batch_record] at h
  cases hA : twd.get? (6 + 1 + i) with
  | none => rw [hA] at h; exact PyResult.noConfusion h
  | some wid =>
    rw [hA] at h
    cases hB : twd.get? (6 + ids_count + 1 + i + 1) with
    | none => rw [hB] at h; exact PyResult.noConfusion h
    | some wval =>
      rw [hB] at h
      cases hC : twd.get? 2 with
      | none => rw [hC] at h; exact PyResult.noConfusion h
      | some w2 =>
        rw [hC] at h
        cases hD : twd.get? 3 with
        | none => rw [hD] at h; exact PyResult.noConfusion h
        | some w3 =>
          rw [hD] at h
          injection h with h
          exact ⟨wid, wval, w2, w3, h.symm⟩

theorem handle_batch_some_inv (log : EthReceiptLog) (topics : List String)
    (ts : List EthTokenTransfer) (ws : List String)
    (h : handle_erc1155_batch_transfer log topics = .ok (some ts, ws)) :
    ws = [] ∧ ∀ t ∈ ts, ∃ wid wval w2 w3, t =
      { token_address := to_normalized_address log.address
        from_address := word_to_address (some w2)
        to_address := word_to_address (some w3)
        value := hex_to_dec wval
        token_id := some (hex_to_dec wid)
        transaction_hash := log.transaction_hash
        log_index := log.log_index
        block_number := log.block_number } := by
  simp only [handle_erc1155_batch_transfer] at h
  split at h
  · injection h with h
    exact Option.noConfusion (Prod.ext_iff.mp h).1
  · split at h
    · exact PyResult.noConfusion h
    · split at h
      · exact PyResult.noConfusion h
      · split at h
        · injection h with h
          exact Option.noConfusion (Prod.ext_iff.mp h).1
        · split at h
          · exact PyResult.noConfusion h
          · rename_i bs hmap
            injection h with h
            have h1 := (Prod.ext_iff.mp h).1
            have h2 := (Prod.ext_iff.mp h).2
            refine ⟨h2.symm, ?_⟩
            intro t ht
            have hts : bs = ts := Option.some.inj h1
            rw [← hts] at ht
            obtain ⟨i, _, hrec⟩ := mapPyResult_ok_mem _ _ bs hmap t ht
            exact batch_record_ok_inv log _ _ i t hrec

/-- C9: every record the extractor produces carries the log's normalized
address as `token_address`, a present and normalized `from_address` and
`to_address`, and a `token_id` that is present exactly when the log was
routed to one of the two ERC1155-style decoders (the single-id or batch
handler); `value` is always present (a total field of the record, set on
every construction). -/
theorem extract_record_invariants (log : EthReceiptLog) (t0 : String)
    (rest : List String) (ts : List EthTokenTransfer) (ws : List String)
    (htop : log.topics = some (t0 :: rest))
    (hok : extract_transfer_from_log log = .ok (some ts, ws)) :
    ∀ t ∈ ts,
      t.token_address = to_normalized_address log.address ∧
      (∃ a, t.from_address = some (to_normalized_address a)) ∧
      (∃ a, t.to_address = some (to_normalized_address a)) ∧
      (t.token_id.isSome = true ↔
        (casefold t0 = TRANSFER_ERC1155_EVENT_TOPIC ∨
         casefold t0 = TRANSFER_BATCH_ERC1155_EVENT_TOPIC)) := by
  intro t ht
  by_cases h1 : casefold t0 = TRANSFER_EVENT_TOPIC
  · rw [extract_dispatch_transfer log t0 rest htop h1] at hok
    injection hok with hok
    obtain ⟨w1, w2, w3, hws, hts⟩ :=
      handle_transfer_some_inv log (t0 :: rest) ts ws hok
    rw [hts] at ht
    rcases List.mem_singleton.mp ht with rfl
    refine ⟨rfl, word_to_address_some_normalized w1,
      word_to_address_some_normalized w2, ?_, ?_⟩
    · intro hx
      simp at hx
    · rintro (hx | hx)
      · exact absurd (h1.symm.trans hx) sig_constants_distinct.1
      · exact absurd (h1.symm.trans hx) sig_constants_distinct.2.1
  · by_cases h2 : casefold t0 = TRANSFER_ERC1155_EVENT_TOPIC
    · rw [extract_dispatch_erc1155 log t0 rest htop h2] at hok
      injection hok with hok
      obtain ⟨w2, w3, w4, w5, hws, hts⟩ :=
        handle_erc1155_transfer_some_inv log (t0 :: rest) ts ws hok
      rw [hts] at ht
      rcases List.mem_singleton.mp ht with rfl
      exact ⟨rfl, word_to_address_some_normalized w2,
        word_to_address_some_normalized w3, fun _ => Or.inl h2, fun _ => rfl⟩
    · by_cases h3 : casefold t0 = TRANSFER_BATCH_ERC1155_EVENT_TOPIC
      · rw [extract_dispatch_batch log t0 rest htop h3] at hok
        obtain ⟨hws, hall⟩ := handle_batch_some_inv log (t0 :: rest) ts ws hok
        obtain ⟨wid, wval, w2, w3, rfl⟩ := hall t ht
        exact ⟨rfl, word_to_address_some_normalized w2,
          word_to_address_some_normalized w3, fun _ => Or.inr h3, fun _ => rfl⟩
      · have hrej : extract_transfer_from_log log = .ok (none, []) := by
          simp [extract_transfer_from_log, htop, h1, h2, h3]
        rw [hrej] at hok
        injection hok with hok
        exact Option.noConfusion (Prod.ext_iff.mp hok).1

/-- The record extracted from the conforming TransferSingle log. -/
def exRecord1155 : EthTokenTransfer :=
  { token_address := to_normalized_address exLogSingle1155.address
    from_address := word_to_address (some exW17)
    to_address := word_to_address (some exW18)
    value := hex_to_dec "0x0000000000000000000000000000000000000000000000000000000000000003"
    token_id := some (hex_to_dec "0x0000000000000000000000000000000000000000000000000000000000000008")
    transaction_hash := exLogSingle1155.transaction_hash
    log_index := exLogSingle1155.log_index
    block_number := exLogSingle1155.block_number }

/-- C9 witness: the invariants hold on the record extracted from the
conforming TransferSingle log. -/
theorem extract_record_invariants_witness :
    exRecord1155.token_address = to_normalized_address exLogSingle1155.address ∧
    (∃ a, exRecord1155.from_address = some (to_normalized_address a)) ∧
    (∃ a, exRecord1155.to_address = some (to_normalized_address a)) ∧
    (exRecord1155.token_id.isSome = true ↔
      (casefold TRANSFER_ERC1155_EVENT_TOPIC = TRANSFER_ERC1155_EVENT_TOPIC ∨
       casefold TRANSFER_ERC1155_EVENT_TOPIC = TRANSFER_BATCH_ERC1155_EVENT_TOPIC)) :=
  extract_record_invariants exLogSingle1155 TRANSFER_ERC1155_EVENT_TOPIC
    [exW1, exW17, exW18] [exRecord1155] [] rfl (by decide) exRecord1155
    (List.mem_singleton.mpr rfl)
